import Mathlib

set_option autoImplicit false

namespace Assay

/-- A registrable object: a value with an identity and a stable integer file
descriptor returned by its `fileno` accessor.  Distinct objects may report the
same descriptor at different times (descriptor reuse). -/
structure Obj where
  id : Nat
  fd : Nat
deriving DecidableEq, Repr

/-- The descriptor accessor `obj.fileno()`. -/
def Obj.fileno (o : Obj) : Nat := o.fd

/-- Value of `select.EPOLLIN` on Linux. -/
def EPOLLIN : Nat := 1

/-- Value of `errno.EINTR` on Unix. -/
def EINTR : Nat := 4

/-- Value of `select.KQ_FILTER_READ` (EVFILT_READ). -/
def KQ_FILTER_READ : Int := -1

/-- Value of `select.KQ_EV_ADD`. -/
def KQ_EV_ADD : Nat := 1

/-- Value of `select.KQ_EV_ENABLE`. -/
def KQ_EV_ENABLE : Nat := 4

/-- Value of `select.KQ_EV_DELETE`. -/
def KQ_EV_DELETE : Nat := 2

/-- A kqueue change record, as built by `select.kevent(ident, filter, flags)`. -/
structure KEvent where
  ident : Nat
  filter : Int
  flags : Nat
deriving DecidableEq, Repr

/-- Observable actions performed by the poller methods: calls of a registered
object's `fileno` accessor and calls into the kernel multiplexer.  A `None`
change list passed to `kqueue.control` is modelled as the empty list. -/
inductive Action where
  | fileno (o : Obj)
  | epollRegister (fd flags : Nat)
  | epollUnregister (fd : Nat)
  | epollPoll
  | kqControl (changes : List KEvent) (maxEvents : Nat)
  | kqClose
deriving DecidableEq, Repr

/-- The Python exception relevant to the embedded methods: `KeyError`, raised
by `del self.fdmap[fd]` or by `self.fdmap[fd]` on a missing key. -/
inductive PyErr where
  | keyError (fd : Nat)
deriving DecidableEq, Repr

/-- State of an `EPoll` poller: the `fdmap` dictionary from integer descriptor
to registered object.  A Python dict is modelled as a function to `Option Obj`:
assignment overwrites (last write wins) and `del` removes. -/
structure EPoll where
  fdmap : Nat → Option Obj

/-- Embedding of `EPoll.register` (src/assay/unix.py lines 76-79):
`fd = obj.fileno(); self.fdmap[fd] = obj; self.poller.register(fd, flags)`.
Returns the trace of observable actions and the resulting state. -/
def EPoll.register (s : EPoll) (obj : Obj) (flags : Nat) :
    List Action × Except PyErr EPoll :=
  let fd := obj.fileno
  ([Action.fileno obj, Action.epollRegister fd flags],
    Except.ok ⟨fun k => if k = fd then some obj else s.fdmap k⟩)

/-- Embedding of a call of `EPoll.register` that omits the `flags` argument,
so that the default value `select.EPOLLIN` from the signature is used. -/
def EPoll.registerDefault (s : EPoll) (obj : Obj) : List Action × Except PyErr EPoll :=
  s.register obj EPOLLIN

/-- Embedding of `EPoll.unregister` (lines 81-84):
`fd = obj.fileno(); del self.fdmap[fd]; self.poller.unregister(fd)`.
When `fd` is not a key of the map, `del` raises `KeyError` and the kernel
unregister call is never reached. -/
def EPoll.unregister (s : EPoll) (obj : Obj) : List Action × Except PyErr EPoll :=
  let fd := obj.fileno
  match s.fdmap fd with
  | none => ([Action.fileno obj], Except.error (PyErr.keyError fd))
  | some _ =>
    ([Action.fileno obj, Action.epollUnregister fd],
      Except.ok ⟨fun k => if k = fd then none else s.fdmap k⟩)

/-- State of a `KQueue` poller: the `fdmap` dictionary, modelled as for
`EPoll`. -/
structure KQueue where
  fdmap : Nat → Option Obj

/-- Embedding of `KQueue.register` (lines 103-111): `fd = obj.fileno();
self.fdmap[fd] = obj;` then a `control` call submitting one change event
`kevent(fd, KQ_FILTER_READ, flags=KQ_EV_ADD | KQ_EV_ENABLE)` with
`max_events=0`.  There is no flags parameter in the source signature. -/
def KQueue.register (s : KQueue) (obj : Obj) : List Action × Except PyErr KQueue :=
  let fd := obj.fileno
  ([Action.fileno obj,
    Action.kqControl [⟨fd, KQ_FILTER_READ, KQ_EV_ADD ||| KQ_EV_ENABLE⟩] 0],
    Except.ok ⟨fun k => if k = fd then some obj else s.fdmap k⟩)

/-- Embedding of `KQueue.unregister` (lines 113-121): `fd = obj.fileno();
del self.fdmap[fd];` then a `control` call submitting one change event
`kevent(fd, KQ_FILTER_READ, KQ_EV_DELETE)` with `max_events=0`.  When `fd` is
not a key of the map, `del` raises `KeyError` and `control` is never reached. -/
def KQueue.unregister (s : KQueue) (obj : Obj) : List Action × Except PyErr KQueue :=
  let fd := obj.fileno
  match s.fdmap fd with
  | none => ([Action.fileno obj], Except.error (PyErr.keyError fd))
  | some _ =>
    ([Action.fileno obj,
      Action.kqControl [⟨fd, KQ_FILTER_READ, KQ_EV_DELETE⟩] 0],
      Except.ok ⟨fun k => if k = fd then none else s.fdmap k⟩)

/-- One outcome of a blocking call into the kernel multiplexer from
`events()`: either the call raises `IOError` with the given errno, or it
returns the list of fired `(descriptor, flags)` pairs. -/
inductive PollOutcome where
  | ioerr (en : Nat)
  | ready (fired : List (Nat × Nat))
deriving DecidableEq, Repr

/-- Resolve fired `(descriptor, flags)` pairs through the registration map in
order, the way the generator's `for` loop does: each descriptor is looked up
in `fdmap` and yielded with its flags; a missing key raises `KeyError` after
the earlier pairs were already yielded.  Returns the yielded pairs and the
descriptor of the failed lookup, if any. -/
def resolveEvents (m : Nat → Option Obj) : List (Nat × Nat) → List (Obj × Nat) × Option Nat
  | [] => ([], none)
  | (fd, fl) :: rest =>
    match m fd with
    | none => ([], some fd)
    | some o =>
      let r := resolveEvents m rest
      ((o, fl) :: r.1, r.2)

/-- Control location of an `events()` generator run: inside the `while True:`
loop, at the statement after the loop, finished after closing the poller, or
terminated by a raised `IOError` or `KeyError`. -/
inductive Loc where
  | loop
  | afterLoop
  | closedDone
  | osRaised (en : Nat)
  | keyRaised (fd : Nat)
deriving DecidableEq, Repr

/-- State of an `events()` generator run: control location, the pairs yielded
so far, and the trace of kernel calls performed. -/
structure Gen where
  loc : Loc
  out : List (Obj × Nat)
  calls : List Action
deriving Repr

/-- The generator state on entry to `events()`. -/
def genInit : Gen := ⟨Loc.loop, [], []⟩

/-- The shared body of one iteration of the `while True:` loop of `events()`:
the blocking poll call either raised `IOError` (retried when the errno is
`EINTR`, re-raised otherwise) or returned a fired list, which is resolved and
yielded through the map, a failed lookup raising `KeyError`. -/
def loopStep (m : Nat → Option Obj) (out : List (Obj × Nat)) :
    PollOutcome → Loc × List (Obj × Nat)
  | PollOutcome.ioerr en =>
    if en = EINTR then (Loc.loop, out) else (Loc.osRaised en, out)
  | PollOutcome.ready fired =>
    let r := resolveEvents m fired
    (match r.2 with
      | none => Loc.loop
      | some fd => Loc.keyRaised fd,
      out ++ r.1)

/-- One step of `EPoll.events` (lines 86-93): at the top of the loop the
generator calls `self.poller.poll()` and consumes its outcome; a raised error
ends the generator, so every non-loop location is absorbing. -/
def epStep (m : Nat → Option Obj) (g : Gen) (i : PollOutcome) : Gen :=
  match g.loc with
  | Loc.loop =>
    let r := loopStep m g.out i
    ⟨r.1, r.2, g.calls ++ [Action.epollPoll]⟩
  | _ => g

/-- Run of `EPoll.events` against a finite prefix of kernel poll outcomes. -/
def epRun (m : Nat → Option Obj) (g : Gen) (inps : List PollOutcome) : Gen :=
  inps.foldl (epStep m) g

/-- One step of `KQueue.events` (lines 123-131): at the top of the loop the
generator calls `self.poller.control(None, max_events=0)` (the `None` change
list is modelled as the empty list) and consumes its outcome.  The
`self.poller.close()` of line 131 sits after the loop: it runs exactly when
location `afterLoop` is reached.  Raised errors are absorbing. -/
def kqStep (m : Nat → Option Obj) (g : Gen) (i : PollOutcome) : Gen :=
  match g.loc with
  | Loc.loop =>
    let r := loopStep m g.out i
    ⟨r.1, r.2, g.calls ++ [Action.kqControl [] 0]⟩
  | Loc.afterLoop => ⟨Loc.closedDone, g.out, g.calls ++ [Action.kqClose]⟩
  | _ => g

/-- Run of `KQueue.events` against a finite prefix of kernel poll outcomes. -/
def kqRun (m : Nat → Option Obj) (g : Gen) (inps : List PollOutcome) : Gen :=
  inps.foldl (kqStep m) g

/-- Count of non-overlapping occurrences of `pat` in a character list,
scanning left to right as Python `str.count` does.  After a match, `skip`
remembers how many further characters belong to the matched occurrence and
must not start a new one. -/
def countSkip (pat : List Char) (skip : Nat) : List Char → Nat
  | [] => 0
  | c :: rest =>
    match skip with
    | k + 1 => countSkip pat k rest
    | 0 =>
      if pat.isPrefixOf (c :: rest) then 1 + countSkip pat (pat.length - 1) rest
      else countSkip pat 0 rest

/-- Python `s.count(pat)` for strings (an empty pattern matches at every
position, giving `len(s) + 1`). -/
def strCount (s pat : String) : Nat :=
  if pat.isEmpty then s.length + 1 else countSkip pat.data 0 s.data

/-- The needle `cpu_count` searches for in the contents of `/proc/cpuinfo`. -/
def bogomipsNeedle : String := "\nbogomips"

/-- Embedding of `cpu_count` (lines 42-47).  The file system is an input:
`some contents` when `/proc/cpuinfo` exists and reads as `contents`, `none`
when the path does not exist. -/
def cpu_count (procCpuinfo : Option String) : Nat :=
  match procCpuinfo with
  | some contents => strCount contents bogomipsNeedle
  | none => 2

/-- Number of `fileno` accessor calls in an action trace. -/
def countFileno (tr : List Action) : Nat :=
  tr.countP (fun c => match c with | Action.fileno _ => true | _ => false)

theorem resolveEvents_cons_some (m : Nat → Option Obj) (fd fl : Nat) (o : Obj)
    (rest : List (Nat × Nat)) (h : m fd = some o) :
    resolveEvents m ((fd, fl) :: rest) =
      ((o, fl) :: (resolveEvents m rest).1, (resolveEvents m rest).2) := by
  simp [resolveEvents, h]

theorem resolveEvents_length (m : Nat → Option Obj) :
    ∀ l : List (Nat × Nat), (resolveEvents m l).2 = none →
      (resolveEvents m l).1.length = l.length := by
  intro l
  induction l with
  | nil => intro _; rfl
  | cons q rest ih =>
    obtain ⟨fd, fl⟩ := q
    cases h : m fd with
    | none => intro h2; simp [resolveEvents, h] at h2
    | some o =>
      intro h2
      rw [resolveEvents_cons_some m fd fl o rest h] at h2 ⊢
      simp only [List.length_cons, List.length_cons]
      rw [ih h2]

theorem resolveEvents_avoid (m : Nat → Option Obj) (a : Obj)
    (hm : ∀ d, m d ≠ some a) :
    ∀ (l : List (Nat × Nat)) (p : Obj × Nat), p ∈ (resolveEvents m l).1 → p.1 ≠ a := by
  intro l
  induction l with
  | nil => intro p hp; simp [resolveEvents] at hp
  | cons q rest ih =>
    obtain ⟨fd, fl⟩ := q
    intro p hp
    cases h : m fd with
    | none => simp [resolveEvents, h] at hp
    | some o =>
      rw [resolveEvents_cons_some m fd fl o rest h] at hp
      simp only [List.mem_cons] at hp
      rcases hp with hp | hp
      · subst hp
        intro hco
        exact hm fd (h.trans (congrArg some hco))
      · exact ih p hp

theorem loopStep_out (m : Nat → Option Obj) (out : List (Obj × Nat)) :
    ∀ i : PollOutcome, (loopStep m out i).2 = out ∨
      ∃ fired, i = PollOutcome.ready fired ∧
        (loopStep m out i).2 = out ++ (resolveEvents m fired).1 := by
  intro i
  cases i with
  | ioerr en =>
    left
    simp only [loopStep]
    by_cases he : en = EINTR <;> simp [he]
  | ready fired => exact Or.inr ⟨fired, rfl, rfl⟩

theorem loopStep_loc (m : Nat → Option Obj) (out : List (Obj × Nat)) (i : PollOutcome) :
    (loopStep m out i).1 = Loc.loop ∨ (∃ en, (loopStep m out i).1 = Loc.osRaised en) ∨
      ∃ fd, (loopStep m out i).1 = Loc.keyRaised fd := by
  cases i with
  | ioerr en =>
    by_cases he : en = EINTR
    · left; simp [loopStep, he]
    · right; left; exact ⟨en, by simp [loopStep, he]⟩
  | ready fired =>
    cases h : (resolveEvents m fired).2 with
    | none => left; simp [loopStep, h]
    | some fd => right; right; exact ⟨fd, by simp [loopStep, h]⟩

theorem epStep_avoid (m : Nat → Option Obj) (a : Obj) (hm : ∀ d, m d ≠ some a)
    (g : Gen) (i : PollOutcome) (hg : ∀ p ∈ g.out, p.1 ≠ a) :
    ∀ p ∈ (epStep m g i).out, p.1 ≠ a := by
  obtain ⟨loc, out, calls⟩ := g
  cases loc with
  | loop =>
    intro p hp
    simp only [epStep] at hp
    rcases loopStep_out m out i with h | ⟨fired, _, h⟩
    · rw [h] at hp; exact hg p hp
    · rw [h] at hp
      rcases List.mem_append.mp hp with hp | hp
      · exact hg p hp
      · exact resolveEvents_avoid m a hm fired p hp
  | afterLoop => exact hg
  | closedDone => exact hg
  | osRaised en => exact hg
  | keyRaised fd => exact hg

theorem kqStep_avoid (m : Nat → Option Obj) (a : Obj) (hm : ∀ d, m d ≠ some a)
    (g : Gen) (i : PollOutcome) (hg : ∀ p ∈ g.out, p.1 ≠ a) :
    ∀ p ∈ (kqStep m g i).out, p.1 ≠ a := by
  obtain ⟨loc, out, calls⟩ := g
  cases loc with
  | loop =>
    intro p hp
    simp only [kqStep] at hp
    rcases loopStep_out m out i with h | ⟨fired, _, h⟩
    · rw [h] at hp; exact hg p hp
    · rw [h] at hp
      rcases List.mem_append.mp hp with hp | hp
      · exact hg p hp
      · exact resolveEvents_avoid m a hm fired p hp
  | afterLoop => exact hg
  | closedDone => exact hg
  | osRaised en => exact hg
  | keyRaised fd => exact hg

theorem epRun_avoid (m : Nat → Option Obj) (a : Obj) (hm : ∀ d, m d ≠ some a) :
    ∀ (inps : List PollOutcome) (g : Gen), (∀ p ∈ g.out, p.1 ≠ a) →
      ∀ p ∈ (epRun m g inps).out, p.1 ≠ a := by
  intro inps
  induction inps with
  | nil => intro g hg; exact hg
  | cons i rest ih =>
    intro g hg
    simp only [epRun, List.foldl]
    exact ih (epStep m g i) (epStep_avoid m a hm g i hg)

theorem kqRun_avoid (m : Nat → Option Obj) (a : Obj) (hm : ∀ d, m d ≠ some a) :
    ∀ (inps : List PollOutcome) (g : Gen), (∀ p ∈ g.out, p.1 ≠ a) →
      ∀ p ∈ (kqRun m g inps).out, p.1 ≠ a := by
  intro inps
  induction inps with
  | nil => intro g hg; exact hg
  | cons i rest ih =>
    intro g hg
    simp only [kqRun, List.foldl]
    exact ih (kqStep m g i) (kqStep_avoid m a hm g i hg)

theorem epStep_absorb (m : Nat → Option Obj) (g : Gen) (i : PollOutcome)
    (h : g.loc ≠ Loc.loop) : epStep m g i = g := by
  obtain ⟨loc, out, calls⟩ := g
  cases loc with
  | loop => exact absurd rfl h
  | afterLoop => rfl
  | closedDone => rfl
  | osRaised en => rfl
  | keyRaised fd => rfl

theorem epRun_absorb (m : Nat → Option Obj) (g : Gen) (h : g.loc ≠ Loc.loop) :
    ∀ inps, epRun m g inps = g := by
  intro inps
  induction inps with
  | nil => rfl
  | cons i rest ih =>
    simp only [epRun, List.foldl]
    rw [epStep_absorb m g i h]
    exact ih

theorem kqStep_absorb (m : Nat → Option Obj) (g : Gen) (i : PollOutcome)
    (h1 : g.loc ≠ Loc.loop) (h2 : g.loc ≠ Loc.afterLoop) : kqStep m g i = g := by
  obtain ⟨loc, out, calls⟩ := g
  cases loc with
  | loop => exact absurd rfl h1
  | afterLoop => exact absurd rfl h2
  | closedDone => rfl
  | osRaised en => rfl
  | keyRaised fd => rfl

theorem kqRun_absorb (m : Nat → Option Obj) (g : Gen) (h1 : g.loc ≠ Loc.loop)
    (h2 : g.loc ≠ Loc.afterLoop) : ∀ inps, kqRun m g inps = g := by
  intro inps
  induction inps with
  | nil => rfl
  | cons i rest ih =>
    simp only [kqRun, List.foldl]
    rw [kqStep_absorb m g i h1 h2]
    exact ih

/-- Invariant of every reachable state of a `KQueue.events` run: the location
after the loop is never reached and every kernel call so far was
`control([], max_events=0)`. -/
def kqInv (g : Gen) : Prop :=
  g.loc ≠ Loc.afterLoop ∧ g.loc ≠ Loc.closedDone ∧
    ∀ c ∈ g.calls, c = Action.kqControl [] 0

theorem kqStep_inv (m : Nat → Option Obj) (g : Gen) (i : PollOutcome)
    (h : kqInv g) : kqInv (kqStep m g i) := by
  obtain ⟨h1, h2, h3⟩ := h
  obtain ⟨loc, out, calls⟩ := g
  cases loc with
  | loop =>
    refine ⟨?_, ?_, ?_⟩
    · show (loopStep m out i).1 ≠ Loc.afterLoop
      rcases loopStep_loc m out i with h | ⟨en, h⟩ | ⟨fd, h⟩ <;> rw [h] <;> simp
    · show (loopStep m out i).1 ≠ Loc.closedDone
      rcases loopStep_loc m out i with h | ⟨en, h⟩ | ⟨fd, h⟩ <;> rw [h] <;> simp
    · show ∀ c ∈ calls ++ [Action.kqControl [] 0], c = Action.kqControl [] 0
      intro c hc
      rcases List.mem_append.mp hc with hc | hc
      · exact h3 c hc
      · simpa using hc
  | afterLoop => exact absurd rfl h1
  | closedDone => exact ⟨h1, h2, h3⟩
  | osRaised en => exact ⟨h1, h2, h3⟩
  | keyRaised fd => exact ⟨h1, h2, h3⟩

theorem kqRun_inv (m : Nat → Option Obj) :
    ∀ (inps : List PollOutcome) (g : Gen), kqInv g → kqInv (kqRun m g inps) := by
  intro inps
  induction inps with
  | nil => intro g h; exact h
  | cons i rest ih =>
    intro g h
    simp only [kqRun, List.foldl]
    exact ih (kqStep m g i) (kqStep_inv m g i h)

theorem kqInv_init : kqInv genInit := by
  unfold kqInv
  refine ⟨by decide, by decide, ?_⟩
  intro c hc
  simp [genInit] at hc

/-- Concrete objects, maps and poller states used to instantiate the claim
theorems on explicit inputs.  `objA` and `objB` are distinct objects sharing
descriptor 5 (descriptor reuse). -/
def objA : Obj := ⟨0, 5⟩

/-- A second concrete object on the same descriptor as `objA`. -/
def objB : Obj := ⟨1, 5⟩

/-- A poller state with an empty registration map. -/
def emptyEP : EPoll := ⟨fun _ => none⟩

/-- A queue-based poller state with an empty registration map. -/
def emptyKQ : KQueue := ⟨fun _ => none⟩

/-- A registration map holding `objA` at descriptor 5. -/
def mapA : Nat → Option Obj := fun d => if d = 5 then some objA else none

/-- A list-based poller state holding `objA` at descriptor 5. -/
def regAEP : EPoll := ⟨fun k => if k = 5 then some objA else none⟩

/-- A queue-based poller state holding `objA` at descriptor 5. -/
def regAKQ : KQueue := ⟨fun k => if k = 5 then some objA else none⟩

/-- The list-based state obtained from `regAEP` by deleting descriptor 5. -/
def delAEP : EPoll := ⟨fun k => if k = 5 then none else regAEP.fdmap k⟩

/-- The queue-based state obtained from `regAKQ` by deleting descriptor 5. -/
def delAKQ : KQueue := ⟨fun k => if k = 5 then none else regAKQ.fdmap k⟩

/-- A generator state that has raised an `IOError` with errno 13. -/
def gErr : Gen := ⟨Loc.osRaised 13, [], []⟩

/-- Claim C1: `EPoll.register` stores the object in the registration map keyed by
the object's descriptor, overwriting any previous entry for that key and
leaving other keys unchanged (last write wins); after a re-registration on
the same descriptor the map holds the most recent object; and one step of
`events()` on a fired descriptor present in the map yields exactly the pair
`(map[descriptor], flags)` and stays in the loop. -/
theorem epoll_register_map_resolution (s : EPoll) (o b : Obj) (f f2 : Nat)
    (m : Nat → Option Obj) (out : List (Obj × Nat)) (cs : List Action)
    (d fl : Nat) (a : Obj) (hm : m d = some a) :
    (∃ t : EPoll, (EPoll.register s o f).2 = Except.ok t ∧
      t.fdmap o.fileno = some o ∧ ∀ k, k ≠ o.fileno → t.fdmap k = s.fdmap k) ∧
    (∀ t1 t2 : EPoll, (EPoll.register s o f).2 = Except.ok t1 →
      (EPoll.register t1 b f2).2 = Except.ok t2 → b.fileno = o.fileno →
      t2.fdmap o.fileno = some b) ∧
    (epStep m ⟨Loc.loop, out, cs⟩ (PollOutcome.ready [(d, fl)])).out = out ++ [(a, fl)] ∧
    (epStep m ⟨Loc.loop, out, cs⟩ (PollOutcome.ready [(d, fl)])).loc = Loc.loop := by
  refine ⟨⟨⟨fun k => if k = o.fileno then some o else s.fdmap k⟩, rfl, by simp, ?_⟩,
    ?_, ?_, ?_⟩
  · intro k hk
    show (if k = o.fileno then some o else s.fdmap k) = s.fdmap k
    rw [if_neg hk]
  · intro t1 t2 h1 h2 hbo
    simp only [EPoll.register, Except.ok.injEq] at h1 h2
    subst h1
    subst h2
    show (if o.fileno = b.fileno then some b else _) = some b
    rw [if_pos hbo.symm]
  · simp [epStep, loopStep, resolveEvents, hm]
  · simp [epStep, loopStep, resolveEvents, hm]

/-- Instantiation of the C1 theorem on explicit inputs. -/
theorem epoll_register_map_resolution_witness :
    mapA 5 = some objA ∧
    ((∃ t : EPoll, (EPoll.register emptyEP objA 1).2 = Except.ok t ∧
        t.fdmap objA.fileno = some objA ∧
        ∀ k, k ≠ objA.fileno → t.fdmap k = emptyEP.fdmap k) ∧
      (∀ t1 t2 : EPoll, (EPoll.register emptyEP objA 1).2 = Except.ok t1 →
        (EPoll.register t1 objB 2).2 = Except.ok t2 → objB.fileno = objA.fileno →
        t2.fdmap objA.fileno = some objB) ∧
      (epStep mapA ⟨Loc.loop, [], []⟩ (PollOutcome.ready [(5, 3)])).out = [] ++ [(objA, 3)] ∧
      (epStep mapA ⟨Loc.loop, [], []⟩ (PollOutcome.ready [(5, 3)])).loc = Loc.loop) :=
  ⟨by decide,
    epoll_register_map_resolution emptyEP objA objB 1 2 mapA [] [] 5 3 objA (by decide)⟩

/-- Claim C2: an `IOError` with errno `EINTR` raised by the blocking poll call is
silently retried in both backends: the generator stays at the top of the loop
having yielded nothing for it, and after a single injected interruption a run
still yields the next real event. -/
theorem events_retry_on_eintr (m : Nat → Option Obj) (g : Gen)
    (out : List (Obj × Nat)) (cs : List Action) (d fl : Nat) (a : Obj)
    (hg : g.loc = Loc.loop) (hm : m d = some a) :
    epStep m g (PollOutcome.ioerr EINTR) = ⟨Loc.loop, g.out, g.calls ++ [Action.epollPoll]⟩ ∧
    kqStep m g (PollOutcome.ioerr EINTR)
        = ⟨Loc.loop, g.out, g.calls ++ [Action.kqControl [] 0]⟩ ∧
    (epRun m ⟨Loc.loop, out, cs⟩ [PollOutcome.ioerr EINTR, PollOutcome.ready [(d, fl)]]).out
        = out ++ [(a, fl)] ∧
    (kqRun m ⟨Loc.loop, out, cs⟩ [PollOutcome.ioerr EINTR, PollOutcome.ready [(d, fl)]]).out
        = out ++ [(a, fl)] := by
  obtain ⟨loc, gout, gcalls⟩ := g
  replace hg : loc = Loc.loop := hg
  subst hg
  refine ⟨?_, ?_, ?_, ?_⟩ <;>
    simp [epStep, kqStep, loopStep, epRun, kqRun, resolveEvents, hm, List.foldl]

/-- Instantiation of the C2 theorem on explicit inputs. -/
theorem events_retry_on_eintr_witness :
    genInit.loc = Loc.loop ∧ mapA 5 = some objA ∧
    (epRun mapA ⟨Loc.loop, [], []⟩ [PollOutcome.ioerr EINTR, PollOutcome.ready [(5, 2)]]).out
        = [] ++ [(objA, 2)] ∧
    (kqRun mapA ⟨Loc.loop, [], []⟩ [PollOutcome.ioerr EINTR, PollOutcome.ready [(5, 2)]]).out
        = [] ++ [(objA, 2)] :=
  ⟨by decide, by decide,
    (events_retry_on_eintr mapA genInit [] [] 5 2 objA (by decide) (by decide)).2.2.1,
    (events_retry_on_eintr mapA genInit [] [] 5 2 objA (by decide) (by decide)).2.2.2⟩

/-- Claim C3: an `IOError` with errno other than `EINTR` raised by the poll call,
and a `KeyError` from resolving a fired descriptor that is missing from the
registration map, both move the generator to the corresponding raised
location with nothing further yielded for that cycle, and raised locations
are absorbing — the event sequence has terminated — in both backends. -/
theorem events_propagate_errors (m : Nat → Option Obj) (g : Gen) (en fd : Nat)
    (fired : List (Nat × Nat)) (inps : List PollOutcome) (g2 : Gen)
    (hne : en ≠ EINTR) (hg : g.loc = Loc.loop)
    (hfail : (resolveEvents m fired).2 = some fd)
    (hg2 : g2.loc = Loc.osRaised en ∨ g2.loc = Loc.keyRaised fd) :
    (epStep m g (PollOutcome.ioerr en)).loc = Loc.osRaised en ∧
    (kqStep m g (PollOutcome.ioerr en)).loc = Loc.osRaised en ∧
    (epStep m g (PollOutcome.ioerr en)).out = g.out ∧
    (kqStep m g (PollOutcome.ioerr en)).out = g.out ∧
    (epStep m g (PollOutcome.ready fired)).loc = Loc.keyRaised fd ∧
    (kqStep m g (PollOutcome.ready fired)).loc = Loc.keyRaised fd ∧
    epRun m g2 inps = g2 ∧ kqRun m g2 inps = g2 := by
  obtain ⟨loc, gout, gcalls⟩ := g
  replace hg : loc = Loc.loop := hg
  subst hg
  have habs1 : g2.loc ≠ Loc.loop := by
    rcases hg2 with h | h <;> rw [h] <;> simp
  have habs2 : g2.loc ≠ Loc.afterLoop := by
    rcases hg2 with h | h <;> rw [h] <;> simp
  refine ⟨?_, ?_, ?_, ?_, ?_, ?_, epRun_absorb m g2 habs1 inps,
    kqRun_absorb m g2 habs1 habs2 inps⟩ <;>
    simp [epStep, kqStep, loopStep, hne, hfail]

/-- Instantiation of the C3 theorem on explicit inputs. -/
theorem events_propagate_errors_witness :
    (13 : Nat) ≠ EINTR ∧ genInit.loc = Loc.loop ∧
    (resolveEvents mapA [(7, 1)]).2 = some 7 ∧
    (gErr.loc = Loc.osRaised 13 ∨ gErr.loc = Loc.keyRaised 7) ∧
    ((epStep mapA genInit (PollOutcome.ioerr 13)).loc = Loc.osRaised 13 ∧
      (epStep mapA genInit (PollOutcome.ready [(7, 1)])).loc = Loc.keyRaised 7 ∧
      epRun mapA gErr [PollOutcome.ready [(5, 1)]] = gErr ∧
      kqRun mapA gErr [PollOutcome.ready [(5, 1)]] = gErr) := by
  have h := events_propagate_errors mapA genInit 13 7 [(7, 1)] [PollOutcome.ready [(5, 1)]]
    gErr (by decide) (by decide) (by decide) (Or.inl (by decide))
  exact ⟨by decide, by decide, by decide, Or.inl (by decide),
    h.1, h.2.2.2.2.1, h.2.2.2.2.2.2.1, h.2.2.2.2.2.2.2⟩

theorem mapSet_avoid (m : Nat → Option Obj) (a b : Obj) (fd : Nat)
    (hm : ∀ d, m d ≠ some a) (hab : b ≠ a) (d : Nat) :
    (if d = fd then some b else m d) ≠ some a := by
  by_cases hd : d = fd
  · rw [if_pos hd]
    intro h
    exact hab (Option.some.inj h)
  · rw [if_neg hd]
    exact hm d

theorem mapDel_avoid (m : Nat → Option Obj) (a : Obj) (fd : Nat)
    (hm : ∀ d, d ≠ fd → m d ≠ some a) (d : Nat) :
    (if d = fd then none else m d) ≠ some a := by
  by_cases hd : d = fd
  · rw [if_pos hd]
    exact fun h => Option.noConfusion h
  · rw [if_neg hd]
    exact hm d hd

/-- Claim C4: after a successful `unregister(obj)` the object is gone from the
registration map: starting from any state whose map does not hold the object,
registering it and then unregistering it leaves a map from which no run of
`events()` ever yields the object; and even after its descriptor is reused by
registering a different object on the same descriptor, events resolve to the
new object and still never to the unregistered one — in both backends. -/
theorem unregister_removes_resolution (s : EPoll) (sq : KQueue) (a b : Obj) (f : Nat)
    (hs : ∀ d, s.fdmap d ≠ some a) (hq : ∀ d, sq.fdmap d ≠ some a) (hab : b ≠ a) :
    (∀ s1 : EPoll, (EPoll.register s a f).2 = Except.ok s1 →
      (∃ s2, (EPoll.unregister s1 a).2 = Except.ok s2) ∧
      ∀ s2 : EPoll, (EPoll.unregister s1 a).2 = Except.ok s2 →
        (∀ d, s2.fdmap d ≠ some a) ∧
        (∀ inps p, p ∈ (epRun s2.fdmap genInit inps).out → p.1 ≠ a) ∧
        ∀ fb s3, (EPoll.register s2 b fb).2 = Except.ok s3 →
          s3.fdmap b.fileno = some b ∧
          ∀ inps p, p ∈ (epRun s3.fdmap genInit inps).out → p.1 ≠ a) ∧
    (∀ t1 : KQueue, (KQueue.register sq a).2 = Except.ok t1 →
      (∃ t2, (KQueue.unregister t1 a).2 = Except.ok t2) ∧
      ∀ t2 : KQueue, (KQueue.unregister t1 a).2 = Except.ok t2 →
        (∀ d, t2.fdmap d ≠ some a) ∧
        (∀ inps p, p ∈ (kqRun t2.fdmap genInit inps).out → p.1 ≠ a) ∧
        ∀ t3, (KQueue.register t2 b).2 = Except.ok t3 →
          t3.fdmap b.fileno = some b ∧
          ∀ inps p, p ∈ (kqRun t3.fdmap genInit inps).out → p.1 ≠ a) := by
  constructor
  · intro s1 h1
    simp only [EPoll.register, Except.ok.injEq] at h1
    subst h1
    constructor
    · exact ⟨⟨fun k => if k = a.fileno then none
        else if k = a.fileno then some a else s.fdmap k⟩, by simp [EPoll.unregister]⟩
    · intro s2 h2
      simp [EPoll.unregister] at h2
      subst h2
      have hm2 : ∀ d, (fun k => if k = a.fileno then none
          else if k = a.fileno then some a else s.fdmap k) d ≠ some a := by
        intro d
        by_cases hd : d = a.fileno
        · simp [hd]
        · simp only [if_neg hd]
          exact hs d
      refine ⟨hm2, ?_, ?_⟩
      · intro inps p hp
        exact epRun_avoid _ a hm2 inps genInit (by simp [genInit]) p hp
      · intro fb s3 h3
        simp only [EPoll.register, Except.ok.injEq] at h3
        subst h3
        have hm3 : ∀ d, (fun k => if k = b.fileno then some b
            else if k = a.fileno then none
            else if k = a.fileno then some a else s.fdmap k) d ≠ some a := by
          intro d
          by_cases hd : d = b.fileno
          · simp only [if_pos hd]
            intro h
            exact hab (Option.some.inj h)
          · simp only [if_neg hd]
            exact hm2 d
        refine ⟨by simp, ?_⟩
        intro inps p hp
        exact epRun_avoid _ a hm3 inps genInit (by simp [genInit]) p hp
  · intro t1 h1
    simp only [KQueue.register, Except.ok.injEq] at h1
    subst h1
    constructor
    · exact ⟨⟨fun k => if k = a.fileno then none
        else if k = a.fileno then some a else sq.fdmap k⟩, by simp [KQueue.unregister]⟩
    · intro t2 h2
      simp [KQueue.unregister] at h2
      subst h2
      have hm2 : ∀ d, (fun k => if k = a.fileno then none
          else if k = a.fileno then some a else sq.fdmap k) d ≠ some a := by
        intro d
        by_cases hd : d = a.fileno
        · simp [hd]
        · simp only [if_neg hd]
          exact hq d
      refine ⟨hm2, ?_, ?_⟩
      · intro inps p hp
        exact kqRun_avoid _ a hm2 inps genInit (by simp [genInit]) p hp
      · intro t3 h3
        simp only [KQueue.register, Except.ok.injEq] at h3
        subst h3
        have hm3 : ∀ d, (fun k => if k = b.fileno then some b
            else if k = a.fileno then none
            else if k = a.fileno then some a else sq.fdmap k) d ≠ some a := by
          intro d
          by_cases hd : d = b.fileno
          · simp only [if_pos hd]
            intro h
            exact hab (Option.some.inj h)
          · simp only [if_neg hd]
            exact hm2 d
        refine ⟨by simp, ?_⟩
        intro inps p hp
        exact kqRun_avoid _ a hm3 inps genInit (by simp [genInit]) p hp

/-- Instantiation of the C4 theorem on explicit inputs: `objA` and `objB` are
distinct objects sharing descriptor 5. -/
theorem unregister_removes_resolution_witness :
    (∀ d, emptyEP.fdmap d ≠ some objA) ∧ (∀ d, emptyKQ.fdmap d ≠ some objA) ∧
    objB ≠ objA ∧
    ((∀ s1 : EPoll, (EPoll.register emptyEP objA 1).2 = Except.ok s1 →
      (∃ s2, (EPoll.unregister s1 objA).2 = Except.ok s2) ∧
      ∀ s2 : EPoll, (EPoll.unregister s1 objA).2 = Except.ok s2 →
        (∀ d, s2.fdmap d ≠ some objA) ∧
        (∀ inps p, p ∈ (epRun s2.fdmap genInit inps).out → p.1 ≠ objA) ∧
        ∀ fb s3, (EPoll.register s2 objB fb).2 = Except.ok s3 →
          s3.fdmap objB.fileno = some objB ∧
          ∀ inps p, p ∈ (epRun s3.fdmap genInit inps).out → p.1 ≠ objA) ∧
    (∀ t1 : KQueue, (KQueue.register emptyKQ objA).2 = Except.ok t1 →
      (∃ t2, (KQueue.unregister t1 objA).2 = Except.ok t2) ∧
      ∀ t2 : KQueue, (KQueue.unregister t1 objA).2 = Except.ok t2 →
        (∀ d, t2.fdmap d ≠ some objA) ∧
        (∀ inps p, p ∈ (kqRun t2.fdmap genInit inps).out → p.1 ≠ objA) ∧
        ∀ t3, (KQueue.register t2 objB).2 = Except.ok t3 →
          t3.fdmap objB.fileno = some objB ∧
          ∀ inps p, p ∈ (kqRun t3.fdmap genInit inps).out → p.1 ≠ objA)) :=
  ⟨fun d h => Option.noConfusion h, fun d h => Option.noConfusion h,
    by decide,
    unregister_removes_resolution emptyEP emptyKQ objA objB 1
      (fun d h => Option.noConfusion h) (fun d h => Option.noConfusion h) (by decide)⟩

/-- Claim C5: every kernel call a `KQueue.events` run makes is
`control([], max_events=0)` — the empty change list with the zero max-events
cap — and a loop step consuming a fired list that the map fully resolves
yields every one of its events, the generator applying no cap of its own to
the list the kernel returned. -/
theorem kqueue_poll_empty_changes_zero_cap (m : Nat → Option Obj)
    (inps : List PollOutcome) (out : List (Obj × Nat)) (cs : List Action)
    (fired : List (Nat × Nat)) (hok : (resolveEvents m fired).2 = none) :
    (∀ c ∈ (kqRun m genInit inps).calls, c = Action.kqControl [] 0) ∧
    (kqStep m ⟨Loc.loop, out, cs⟩ (PollOutcome.ready fired)).calls
        = cs ++ [Action.kqControl [] 0] ∧
    (kqStep m ⟨Loc.loop, out, cs⟩ (PollOutcome.ready fired)).out
        = out ++ (resolveEvents m fired).1 ∧
    (resolveEvents m fired).1.length = fired.length :=
  ⟨(kqRun_inv m inps genInit kqInv_init).2.2, rfl, rfl,
    resolveEvents_length m fired hok⟩

/-- Instantiation of the C5 theorem on explicit inputs. -/
theorem kqueue_poll_empty_changes_zero_cap_witness :
    (resolveEvents mapA [(5, 2)]).2 = none ∧
    ((∀ c ∈ (kqRun mapA genInit
          [PollOutcome.ioerr EINTR, PollOutcome.ready [(5, 2)]]).calls,
        c = Action.kqControl [] 0) ∧
      (kqStep mapA ⟨Loc.loop, [], []⟩ (PollOutcome.ready [(5, 2)])).calls
          = [] ++ [Action.kqControl [] 0] ∧
      (kqStep mapA ⟨Loc.loop, [], []⟩ (PollOutcome.ready [(5, 2)])).out
          = [] ++ (resolveEvents mapA [(5, 2)]).1 ∧
      (resolveEvents mapA [(5, 2)]).1.length = [(5, 2)].length) :=
  ⟨by decide,
    kqueue_poll_empty_changes_zero_cap mapA
      [PollOutcome.ioerr EINTR, PollOutcome.ready [(5, 2)]] [] [] [(5, 2)] (by decide)⟩

/-- Claim C6: unregistering an object that is not registered — never registered, or
already removed — raises `KeyError` from the map deletion, and the returned
trace shows only the `fileno` call: no delete-interest call reaches the
kernel multiplexer, in either backend. -/
theorem unregister_unknown_raises (s : EPoll) (sq : KQueue) (o : Obj)
    (hs : s.fdmap o.fileno = none) (hq : sq.fdmap o.fileno = none) :
    EPoll.unregister s o = ([Action.fileno o], Except.error (PyErr.keyError o.fileno)) ∧
    KQueue.unregister sq o = ([Action.fileno o], Except.error (PyErr.keyError o.fileno)) := by
  constructor
  · simp [EPoll.unregister, hs]
  · simp [KQueue.unregister, hq]

/-- Instantiation of the C6 theorem on explicit inputs. -/
theorem unregister_unknown_raises_witness :
    emptyEP.fdmap objA.fileno = none ∧ emptyKQ.fdmap objA.fileno = none ∧
    (EPoll.unregister emptyEP objA
        = ([Action.fileno objA], Except.error (PyErr.keyError objA.fileno)) ∧
      KQueue.unregister emptyKQ objA
        = ([Action.fileno objA], Except.error (PyErr.keyError objA.fileno))) :=
  ⟨rfl, rfl, unregister_unknown_raises emptyEP emptyKQ objA rfl rfl⟩

/-- Claim C7: the close call after the loop of `KQueue.events` is unreachable: a
run started at the generator entry never reaches the after-loop location, nor
the location following the close, and the close action never appears in the
kernel-call trace — although the model does contain the close transition,
which fires exactly when the after-loop location would be reached. -/
theorem kqueue_close_unreachable (m : Nat → Option Obj) (inps : List PollOutcome)
    (out : List (Obj × Nat)) (cs : List Action) (i : PollOutcome) :
    (kqRun m genInit inps).loc ≠ Loc.afterLoop ∧
    (kqRun m genInit inps).loc ≠ Loc.closedDone ∧
    Action.kqClose ∉ (kqRun m genInit inps).calls ∧
    (kqStep m ⟨Loc.afterLoop, out, cs⟩ i).calls = cs ++ [Action.kqClose] := by
  have h := kqRun_inv m inps genInit kqInv_init
  refine ⟨h.1, h.2.1, ?_, rfl⟩
  intro hc
  exact Action.noConfusion (h.2.2 Action.kqClose hc)

/-- Claim C8: the list-based backend's register takes a flags parameter, passed
through to the kernel add-interest call, defaulting to `EPOLLIN`
(read-readiness); the queue-based backend's register has no flags parameter
and always submits one add-and-enable change event for the read filter. -/
theorem register_flags_asymmetry (s : EPoll) (sq : KQueue) (o : Obj) (f : Nat) :
    (EPoll.register s o f).1 = [Action.fileno o, Action.epollRegister o.fileno f] ∧
    EPoll.registerDefault s o = EPoll.register s o EPOLLIN ∧
    (EPoll.registerDefault s o).1
        = [Action.fileno o, Action.epollRegister o.fileno EPOLLIN] ∧
    (KQueue.register sq o).1
        = [Action.fileno o,
            Action.kqControl [⟨o.fileno, KQ_FILTER_READ, KQ_EV_ADD ||| KQ_EV_ENABLE⟩] 0] :=
  ⟨rfl, rfl, rfl, rfl⟩

/-- Claim C9: each register and unregister call, in both backends, invokes the
object's `fileno` accessor exactly once — on the failing path of unregister
as well — and uses the returned descriptor both for the registration-map
update and for the kernel interest call. -/
theorem fileno_called_once (s : EPoll) (sq : KQueue) (o : Obj) (f : Nat) :
    countFileno (EPoll.register s o f).1 = 1 ∧
    countFileno (EPoll.unregister s o).1 = 1 ∧
    countFileno (KQueue.register sq o).1 = 1 ∧
    countFileno (KQueue.unregister sq o).1 = 1 ∧
    Action.epollRegister o.fileno f ∈ (EPoll.register s o f).1 ∧
    (∀ t, (EPoll.register s o f).2 = Except.ok t → t.fdmap o.fileno = some o) ∧
    (∀ t, (EPoll.unregister s o).2 = Except.ok t →
      t.fdmap o.fileno = none ∧
      Action.epollUnregister o.fileno ∈ (EPoll.unregister s o).1) ∧
    Action.kqControl [⟨o.fileno, KQ_FILTER_READ, KQ_EV_ADD ||| KQ_EV_ENABLE⟩] 0
        ∈ (KQueue.register sq o).1 ∧
    (∀ t, (KQueue.register sq o).2 = Except.ok t → t.fdmap o.fileno = some o) ∧
    (∀ t, (KQueue.unregister sq o).2 = Except.ok t →
      t.fdmap o.fileno = none ∧
      Action.kqControl [⟨o.fileno, KQ_FILTER_READ, KQ_EV_DELETE⟩] 0
          ∈ (KQueue.unregister sq o).1) := by
  refine ⟨?_, ?_, ?_, ?_, ?_, ?_, ?_, ?_, ?_, ?_⟩
  · simp [EPoll.register, countFileno]
  · cases h : s.fdmap o.fileno <;> simp [EPoll.unregister, countFileno, h]
  · simp [KQueue.register, countFileno]
  · cases h : sq.fdmap o.fileno <;> simp [KQueue.unregister, countFileno, h]
  · simp [EPoll.register]
  · intro t h
    simp [EPoll.register] at h
    subst h
    simp
  · intro t h
    cases hc : s.fdmap o.fileno with
    | none => simp [EPoll.unregister, hc] at h
    | some x =>
      simp [EPoll.unregister, hc] at h
      subst h
      exact ⟨by simp, by simp [EPoll.unregister, hc]⟩
  · simp [KQueue.register]
  · intro t h
    simp [KQueue.register] at h
    subst h
    simp
  · intro t h
    cases hc : sq.fdmap o.fileno with
    | none => simp [KQueue.unregister, hc] at h
    | some x =>
      simp [KQueue.unregister, hc] at h
      subst h
      exact ⟨by simp, by simp [KQueue.unregister, hc]⟩

/-- Instantiation of the C9 theorem on explicit inputs, discharging the
success hypotheses at the concrete states reached by register and
unregister. -/
theorem fileno_called_once_witness :
    (EPoll.register emptyEP objA 1).2 = Except.ok regAEP ∧
    (EPoll.unregister regAEP objA).2 = Except.ok delAEP ∧
    (KQueue.register emptyKQ objA).2 = Except.ok regAKQ ∧
    (KQueue.unregister regAKQ objA).2 = Except.ok delAKQ ∧
    countFileno (EPoll.register emptyEP objA 1).1 = 1 ∧
    countFileno (EPoll.unregister regAEP objA).1 = 1 ∧
    regAEP.fdmap objA.fileno = some objA ∧
    (delAEP.fdmap objA.fileno = none ∧
      Action.epollUnregister objA.fileno ∈ (EPoll.unregister regAEP objA).1) ∧
    regAKQ.fdmap objA.fileno = some objA ∧
    (delAKQ.fdmap objA.fileno = none ∧
      Action.kqControl [⟨objA.fileno, KQ_FILTER_READ, KQ_EV_DELETE⟩] 0
          ∈ (KQueue.unregister regAKQ objA).1) :=
  ⟨rfl, rfl, rfl, rfl,
    (fileno_called_once emptyEP emptyKQ objA 1).1,
    (fileno_called_once regAEP regAKQ objA 1).2.1,
    (fileno_called_once emptyEP emptyKQ objA 1).2.2.2.2.2.1 regAEP rfl,
    (fileno_called_once regAEP regAKQ objA 1).2.2.2.2.2.2.1 delAEP rfl,
    (fileno_called_once emptyEP emptyKQ objA 1).2.2.2.2.2.2.2.2.1 regAKQ rfl,
    (fileno_called_once regAEP regAKQ objA 1).2.2.2.2.2.2.2.2.2 delAKQ rfl⟩

/-- Contents standing in for a two-CPU `/proc/cpuinfo`. -/
def sampleCpuinfo : String := "processor 0\nbogomips 4800.00\nprocessor 1\nbogomips 4800.00\n"

/-- Contents whose leading `bogomips` is not preceded by a newline, so only
one occurrence of the needle is counted. -/
def sampleLeading : String := "bogomips 1\nbogomips 2"

/-- Empty file contents. -/
def emptyContents : String := ""

/-- Claim C10: `cpu_count` returns the number of occurrences of `"\nbogomips"` in
the contents of `/proc/cpuinfo` when the file exists and the constant 2 when
it does not; it is total on its input, so a missing file cannot raise. -/
theorem cpu_count_bogomips (s : String) :
    cpu_count none = 2 ∧
    cpu_count (some s) = strCount s bogomipsNeedle ∧
    cpu_count (some sampleCpuinfo) = 2 ∧
    cpu_count (some sampleLeading) = 1 ∧
    cpu_count (some emptyContents) = 0 :=
  ⟨rfl, rfl, by decide, by decide, by decide⟩

end Assay
